import Mathlib

namespace DizzySync

/-- Characters of a string literal, used to state Rust `String` values as `List Char`. -/
def lc (s : String) : List Char := s.data

/-- Fuel-indexed body of `replaceList`; the fuel only forces structural recursion and is
always at least the length of `s` at every call site. -/
def replaceListF (fuel : Nat) (s pat rep : List Char) : List Char :=
  match fuel, s with
  | _, [] => []
  | 0, s => s
  | fuel + 1, c :: rest =>
    if pat ≠ [] ∧ pat.isPrefixOf (c :: rest) then
      rep ++ replaceListF fuel ((c :: rest).drop pat.length) pat rep
    else
      c :: replaceListF fuel rest pat rep

/-- Replace every non-overlapping occurrence of `pat` in `s` by `rep`, scanning left to
right, as Rust's `str::replace` does for a non-empty pattern.  (All patterns used by the
program are non-empty literal placeholders; an empty pattern leaves `s` unchanged here.) -/
def replaceList (s pat rep : List Char) : List Char := replaceListF s.length s pat rep

/-- Does `pat` occur as a contiguous substring of `s`? -/
def containsSub (s pat : List Char) : Bool :=
  match s with
  | [] => pat.isPrefixOf []
  | c :: rest => pat.isPrefixOf (c :: rest) || containsSub rest pat

/-! ## Data model (src/client.rs, src/config.rs)

`Album` mirrors the `Album` struct of `client.rs`; Rust `String` is `List Char`,
`Option<String>` is `Option (List Char)`, `Vec<String>` is `List (List Char)`. -/

structure Album where
  id : List Char
  title : List Char
  label : List Char
  cover : List Char
  only_have_gift : Bool
  release_date : Option (List Char)
  description : Option (List Char)
  tags : List (List Char)
  year : Option (List Char)
  authors : Option (List Char)
deriving DecidableEq

/-- One page of the paginated listing (`AlbumListResponse` of `client.rs`, restricted to
the fields the walk reads: the album list and the `canshowmore` flag). -/
structure CatalogPage where
  discs : List Album
  can_show_more : Bool
deriving DecidableEq

structure DownloadConfig where
  formats : List (List Char)
  flatten : Bool
deriving DecidableEq

structure PathsConfig where
  output_dir : List Char
  directory_template : List Char
deriving DecidableEq

/-- `BehaviorConfig`: the fields of `config.rs` plus `metadata_only` and `debug`, which
`downloader.rs` and `main.rs` read from `config.behavior`. -/
structure BehaviorConfig where
  skip_existing : Bool
  single_threaded : Bool
  generate_readme : Bool
  generate_nfo : Bool
  metadata_only : Bool
  debug : Bool
deriving DecidableEq

structure Config where
  download : DownloadConfig
  paths : PathsConfig
  behavior : BehaviorConfig
deriving DecidableEq

/-! ## Filename sanitization and the directory-name template
(`Downloader::sanitize_filename`, `Downloader::generate_directory_name`,
`Downloader::convert_chinese_date_to_iso` in src/downloader.rs) -/

/-- The reserved filesystem characters that `sanitize_filename` maps to `_`. -/
def reservedChar (c : Char) : Bool :=
  c = '<' || c = '>' || c = ':' || c = '"' || c = '/' || c = '\\' ||
  c = '|' || c = '?' || c = '*'

def sanitizeChar (c : Char) : Char := if reservedChar c then '_' else c

/-- Whitespace as stripped by Rust's `str::trim`; the model covers the ASCII subset of
Unicode `White_Space`, which is all the program's data and our statements use. -/
def isWhite (c : Char) : Bool := c.isWhitespace

/-- Strip leading and trailing whitespace (`str::trim`). -/
def trimList (s : List Char) : List Char :=
  ((s.dropWhile isWhite).reverse.dropWhile isWhite).reverse

/-- `Downloader::sanitize_filename`: map each reserved character to `_`, then trim. -/
def sanitize_filename (s : List Char) : List Char := trimList (s.map sanitizeChar)

/-- Parse a run of ASCII decimal digits (`str::parse::<u32>` on the digit-only capture
groups of the date regex; those captures are 1–4 digits, so parsing never overflows). -/
def parseDigits (s : List Char) : Nat :=
  s.foldl (fun acc c => acc * 10 + (c.toNat - '0'.toNat)) 0

/-- Render a number below 100 with `{:02}` zero padding. -/
def pad2 (n : Nat) : List Char :=
  if n < 10 then ['0', Char.ofNat ('0'.toNat + n)]
  else [Char.ofNat ('0'.toNat + n / 10), Char.ofNat ('0'.toNat + n % 10)]

/-- Match `\d{1,2}` immediately followed by the separator `sep`, greedily (two digits
first, then one), returning the digit characters and the remainder after `sep`.
This is the regex fragment `(\d{1,2})月` / `(\d{1,2})日` with backtracking. -/
def digits2or1 (sep : Char) (s : List Char) : Option (List Char × List Char) :=
  match s with
  | a :: b :: c :: rest =>
    if a.isDigit && b.isDigit && c = sep then some ([a, b], rest)
    else if a.isDigit && b = sep then some ([a], c :: rest)
    else none
  | [a, b] => if a.isDigit && b = sep then some ([a], []) else none
  | _ => none

/-- Try to match `(\d{4})年(\d{1,2})月(\d{1,2})日` at the head of `s`, returning the
three digit-capture groups.  `\d` is modelled as an ASCII digit (the inputs the program
feeds this regex are ASCII-digit dates). -/
def tryMatchDate (s : List Char) : Option (List Char × List Char × List Char) :=
  match s with
  | a :: b :: c :: d :: e :: rest =>
    if a.isDigit && b.isDigit && c.isDigit && d.isDigit && e = '年' then
      match digits2or1 '月' rest with
      | some (m, rest2) =>
        match digits2or1 '日' rest2 with
        | some (dd, _) => some ([a, b, c, d], m, dd)
        | none => none
      | none => none
    else none
  | _ => none

/-- Leftmost match of the date pattern anywhere in `s` (regex `find` semantics). -/
def findDate (s : List Char) : Option (List Char × List Char × List Char) :=
  match s with
  | [] => none
  | _ :: rest =>
    match tryMatchDate s with
    | some r => some r
    | none => findDate rest

/-- `Downloader::convert_chinese_date_to_iso`: `"2025年6月10日"` style dates become
`"YYYY-MM-DD"`; a string with no match of the pattern is returned unchanged. -/
def convert_chinese_date_to_iso (s : List Char) : List Char :=
  match findDate s with
  | some (y, m, d) => y ++ '-' :: (pad2 (parseDigits m) ++ '-' :: pad2 (parseDigits d))
  | none => s

/-- The five recognized placeholders of the directory-name template, in the order
`generate_directory_name` substitutes them. -/
def placeholderPatterns : List (List Char) :=
  [lc "{album}", lc "{label}", lc "{authors}", lc "{year}", lc "{date}"]

/-- The placeholder-substitution body of `Downloader::generate_directory_name`.
`currentYear`/`currentDate` stand for `chrono::Utc::now()`'s year and `%Y-%m-%d`
rendering, which the source reads from the ambient clock. -/
def substTemplate (template : List Char) (album : Album)
    (currentYear currentDate : List Char) : List Char :=
  let r1 := replaceList template (lc "{album}") (sanitize_filename album.title)
  let r2 := replaceList r1 (lc "{label}") (sanitize_filename album.label)
  let authors := album.authors.getD album.label
  let r3 := replaceList r2 (lc "{authors}") (sanitize_filename authors)
  let year := album.year.getD currentYear
  let r4 := replaceList r3 (lc "{year}") year
  let date := (album.release_date.map convert_chinese_date_to_iso).getD currentDate
  replaceList r4 (lc "{date}") date

/-- `Downloader::generate_directory_name`: substitute into the configured template. -/
def generate_directory_name (cfg : Config) (album : Album)
    (currentYear currentDate : List Char) : List Char :=
  substTemplate cfg.paths.directory_template album currentYear currentDate

/-- `PathBuf::join` for the relative paths the program builds. -/
def pathJoin (a b : List Char) : List Char := a ++ '/' :: b

/-- `Downloader::get_album_directory`. -/
def get_album_directory (cfg : Config) (album : Album)
    (currentYear currentDate : List Char) : List Char :=
  pathJoin cfg.paths.output_dir (generate_directory_name cfg album currentYear currentDate)

/-! ## Archive classification and member placement (src/downloader.rs) -/

inductive ArchiveFormat where
  | Zip
  | Rar
  | Unknown
deriving DecidableEq

/-- `b"PK"`. -/
def zipMagic : List Nat := [0x50, 0x4B]

/-- `b"Rar!\x1a\x07\x01\x00"` (RAR5). -/
def rar5Magic : List Nat := [0x52, 0x61, 0x72, 0x21, 0x1A, 0x07, 0x01, 0x00]

/-- `b"Rar!\x1a\x07\x00"` (RAR4). -/
def rar4Magic : List Nat := [0x52, 0x61, 0x72, 0x21, 0x1A, 0x07, 0x00]

/-- `Downloader::detect_archive_format`, byte for byte: payload bytes are `Nat`s below
256; `data.starts_with(b"PK")` is `isPrefixOf`, the `&data[0..n] == magic` slice
comparisons are `take`s guarded by the source's length tests. -/
def detect_archive_format (data : List Nat) : ArchiveFormat :=
  if data.length < 4 then .Unknown
  else if zipMagic.isPrefixOf data then .Zip
  else if 8 ≤ data.length ∧ data.take 8 = rar5Magic then .Rar
  else if 7 ≤ data.length ∧ data.take 7 = rar4Magic then .Rar
  else .Unknown

/-- The classifier exactly as the spec sentence reads (refinement target for C5): short
buffers are `Unknown`, then the `PK` prefix, then either Rar magic *as a prefix*. -/
def specClassify (data : List Nat) : ArchiveFormat :=
  if data.length < 4 then .Unknown
  else if zipMagic.isPrefixOf data then .Zip
  else if rar5Magic.isPrefixOf data || rar4Magic.isPrefixOf data then .Rar
  else .Unknown

/-- Output path for one extracted zip member
(`Downloader::extract_zip_file`, lines 187–195): flatten joins the decoded member name
directly onto the album directory; otherwise it goes under the `<format>` subfolder. -/
def zipMemberPath (cfg : Config) (albumDir fmt fileName : List Char) : List Char :=
  if cfg.download.flatten then pathJoin albumDir fileName
  else pathJoin (pathJoin albumDir fmt) fileName

/-- The output paths `extract_zip_file` writes, in archive order.  Member names are the
decoded stored names (UTF-8, falling back to GBK — both decodings are external library
calls, so the model takes the decoded text); names ending in `/` are directories and
are skipped. -/
def extract_zip_paths (cfg : Config) (albumDir fmt : List Char)
    (memberNames : List (List Char)) : List (List Char) :=
  match memberNames with
  | [] => []
  | n :: rest =>
    if n.getLast? = some '/' then extract_zip_paths cfg albumDir fmt rest
    else zipMemberPath cfg albumDir fmt n :: extract_zip_paths cfg albumDir fmt rest

/-- One RAR entry as `process_rar_archive` sees it: the stored filename and the header's
directory flag. -/
structure RarEntry where
  filename : List Char
  is_directory : Bool
deriving DecidableEq

/-- The output paths `Downloader::process_rar_archive` writes (lines 280–288): the same
two placement policies, with directory entries skipped. -/
def process_rar_paths (cfg : Config) (albumDir fmt : List Char)
    (entries : List RarEntry) : List (List Char) :=
  match entries with
  | [] => []
  | e :: rest =>
    if e.is_directory then process_rar_paths cfg albumDir fmt rest
    else zipMemberPath cfg albumDir fmt e.filename :: process_rar_paths cfg albumDir fmt rest

/-- `p` sits directly under directory `dir`: it is `dir ++ "/" ++ base` with no further
path separator in `base`.  (What C4's "written directly under the item directory,
discarding the member's sub-path head" requires of each output path.) -/
def isDirectlyUnder (dir p : List Char) : Bool :=
  (dir ++ ['/']).isPrefixOf p && !(p.drop (dir.length + 1)).contains '/'

/-! ## The scraped detail page (src/client.rs extractors)

An album detail page, reduced to exactly what the extractors select.  Element text is
already the `element.text().collect::<Vec<_>>().join("")` concatenation the source
computes. -/

structure Doc where
  /-- Text of the `<title>` element, when the page has one. -/
  titleText : Option (List Char)
  /-- Texts of the `<h1>` elements, in document order. -/
  h1Texts : List (List Char)
  /-- Texts of elements matching the label selector
  `.album-info .label, .disc-label, [class*='label']`, in document order. -/
  labelRegionTexts : List (List Char)
  /-- Texts of `a[href*="/l/"]` anchors, in document order. -/
  labelLinkTexts : List (List Char)
  /-- Texts of `<p>` elements, in document order. -/
  pTexts : List (List Char)
  /-- Texts of `<h3>` elements, in document order. -/
  h3Texts : List (List Char)
  /-- Texts of `a[href*='/albums/tags/']` anchors, in document order. -/
  tagAnchorTexts : List (List Char)
  /-- `href` attributes of all `<a>` elements, in document order (the download-key
  selectors filter these by substring). -/
  anchorHrefs : List (List Char)
deriving DecidableEq

/-! ## Content fetcher (src/client.rs `download_file` / `download_from_cdn` /
`download_cover`) -/

/-- Errors the modelled client operations surface (`anyhow::Error` values, tagged by
origin; `statusCode` carries the numeric status of `download_cover`'s failure path). -/
inductive DlError where
  | transport
  | statusCode (code : Nat)
  | keyNotFound
  | linkMissing
  | emptyCoverUrl
deriving DecidableEq

/-- A `reqwest::Response` as far as the program reads it: numeric status, the optional
`Location` header, and the body bytes. -/
structure HttpResponse where
  status : Nat
  location : Option (List Char)
  body : List Nat
deriving DecidableEq

/-- `StatusCode::is_redirection`: 300–399. -/
def is_redirection (status : Nat) : Bool := 300 ≤ status && status ≤ 399

/-- `StatusCode::is_success`: 200–299. -/
def is_success (status : Nat) : Bool := 200 ≤ status && status ≤ 299

/-- The network as one item's processing observes it.  Each field answers one kind of
request the client issues; `Except .error` is a transport-level failure of that
request. -/
structure NetModel where
  /-- `GET /d/{id}/` issued by `get_album_details`. -/
  detailPage : Except DlError Doc
  /-- `GET /d/{id}/` issued by `get_download_links` for a given format. -/
  keyPage : List Char → Except DlError Doc
  /-- The response to `download_file`'s authenticated request for a url. -/
  response : List Char → Except DlError HttpResponse
  /-- Body bytes served by the CDN at a redirect location (`download_from_cdn`). -/
  cdnBody : List Char → Except DlError (List Nat)
  /-- `album_dir.exists()`. -/
  dirExists : List Char → Bool
  /-- Outcome of staging/extracting one payload to disk (filesystem + archive-library
  effects of `download_format` after the bytes arrive; no network involved). -/
  extractResult : List Nat → Except DlError Unit

/-- `DizzylabClient::download_file` over a response: a redirection with a `Location`
header triggers exactly one unauthenticated CDN request; every other response — success
or not — has its body returned as the content bytes (the source performs no status
check here). -/
def download_file (net : NetModel) (url : List Char) : Except DlError (List Nat) :=
  match net.response url with
  | .error e => .error e
  | .ok resp =>
    if is_redirection resp.status then
      match resp.location with
      | some loc => net.cdnBody loc
      | none => .ok resp.body
    else .ok resp.body

/-- `DizzylabClient::download_cover`: empty url is an error; a non-success status is an
error carrying the numeric status code; otherwise the body bytes. -/
def download_cover (net : NetModel) (coverUrl : List Char) : Except DlError (List Nat) :=
  if coverUrl = [] then .error .emptyCoverUrl
  else
    match net.response coverUrl with
    | .error e => .error e
    | .ok resp =>
      if !is_success resp.status then .error (.statusCode resp.status)
      else .ok resp.body

/-! ## Metadata extraction (src/client.rs `extract_*`, `get_album_details`)

Each extractor returns `Except DlError (Option _)` like the source's
`Result<Option<String>>`; their bodies, like the source's, only ever construct `ok`. -/

/-- The text before the first occurrence of `sep` (`str::split(sep).next()`, which is
the whole string when `sep` does not occur). -/
def splitFirst (sep s : List Char) : List Char :=
  match s with
  | [] => []
  | c :: rest => if sep.isPrefixOf (c :: rest) then [] else c :: splitFirst sep rest

def unknownTitle : List Char := lc "未知专辑"

def unknownLabel : List Char := lc "未知厂牌"

/-- `extract_title`: first segment of the page title split on `" - "`, trimmed; with no
`<title>` element, the first `<h1>`'s trimmed text when non-empty. -/
def extract_title (doc : Doc) : Except DlError (Option (List Char)) :=
  match doc.titleText with
  | some t => .ok (some (trimList (splitFirst (lc " - ") t)))
  | none =>
    match doc.h1Texts with
    | h :: _ =>
      let ht := trimList h
      if ht ≠ [] then .ok (some ht) else .ok none
    | [] => .ok none

/-- `extract_label`: the first label-selector element's trimmed text when non-empty,
else the first `a[href*="/l/"]` anchor's trimmed text when non-empty. -/
def extract_label (doc : Doc) : Except DlError (Option (List Char)) :=
  match doc.labelRegionTexts with
  | t :: _ =>
    let tt := trimList t
    if tt ≠ [] then .ok (some tt)
    else
      match doc.labelLinkTexts with
      | u :: _ =>
        let ut := trimList u
        if ut ≠ [] then .ok (some ut) else .ok none
      | [] => .ok none
  | [] =>
    match doc.labelLinkTexts with
    | u :: _ =>
      let ut := trimList u
      if ut ≠ [] then .ok (some ut) else .ok none
    | [] => .ok none

/-- Match `发布于` at the head of `s` followed by the date pattern; the returned text is
the regex capture `(\d{4}年\d{1,2}月\d{1,2}日)`. -/
def tryReleaseDate (s : List Char) : Option (List Char) :=
  match s with
  | '发' :: '布' :: '于' :: rest =>
    (tryMatchDate rest).map (fun (y, m, d) => y ++ '年' :: (m ++ '月' :: (d ++ ['日'])))
  | _ => none

/-- Leftmost occurrence of `发布于<date>` in a paragraph's text. -/
def findReleaseDate (s : List Char) : Option (List Char) :=
  match s with
  | [] => none
  | _ :: rest =>
    match tryReleaseDate s with
    | some r => some r
    | none => findReleaseDate rest

/-- The first paragraph carrying a release-date marker wins.  (The source's separate
`contains("发布于")` test is subsumed: the regex match implies it, and a paragraph that
contains the marker without a full date match falls through to the next paragraph.) -/
def firstRelDate (ps : List (List Char)) : Option (List Char) :=
  match ps with
  | [] => none
  | p :: rest =>
    match findReleaseDate p with
    | some d => some d
    | none => firstRelDate rest

/-- `extract_release_date`. -/
def extract_release_date (doc : Doc) : Except DlError (Option (List Char)) :=
  .ok (firstRelDate doc.pTexts)

/-- UTF-8 byte length of a string (Rust's `str::len`). -/
def utf8Len (s : List Char) : Nat := (s.map Char.utf8Size).sum

/-- First `<h3>` whose trimmed text is non-empty and longer than 20 bytes. -/
def firstLongH3 (ts : List (List Char)) : Option (List Char) :=
  match ts with
  | [] => none
  | t :: rest =>
    let tt := trimList t
    if tt ≠ [] && utf8Len tt > 20 then some tt else firstLongH3 rest

/-- `extract_description`. -/
def extract_description (doc : Doc) : Except DlError (Option (List Char)) :=
  .ok (firstLongH3 doc.h3Texts)

/-- `extract_tags`: every tag anchor whose text starts with `#`, the marker stripped. -/
def extract_tags (doc : Doc) : List (List Char) :=
  doc.tagAnchorTexts.filterMap fun t =>
    match t with
    | '#' :: rest => some rest
    | _ => none

/-- Match `(\d{4})年` at the head of `s`. -/
def tryMatchYear (s : List Char) : Option (List Char) :=
  match s with
  | a :: b :: c :: d :: e :: _ =>
    if a.isDigit && b.isDigit && c.isDigit && d.isDigit && e = '年' then some [a, b, c, d]
    else none
  | _ => none

/-- Leftmost match of `(\d{4})年` in `s`. -/
def findYear (s : List Char) : Option (List Char) :=
  match s with
  | [] => none
  | _ :: rest =>
    match tryMatchYear s with
    | some r => some r
    | none => findYear rest

/-- `extract_year`: the 4-digit year of the extracted release date. -/
def extract_year (doc : Doc) : Except DlError (Option (List Char)) :=
  match extract_release_date doc with
  | .error e => .error e
  | .ok none => .ok none
  | .ok (some date) => .ok (findYear date)

/-- Match one labeled-credit pattern, `word[：:]\s*([^\n\r<]+)`, at the head of `s`.
(The regex engine's ability to backtrack the `\s*` into the capture is not modelled; it
only changes captures that would trim to empty anyway.) -/
def tryAuthorAt (word s : List Char) : Option (List Char) :=
  if word.isPrefixOf s then
    match s.drop word.length with
    | c :: rest =>
      if c = '：' || c = ':' then
        let cap := (rest.dropWhile isWhite).takeWhile fun x => x ≠ '\n' && x ≠ '\r' && x ≠ '<'
        if cap ≠ [] then some cap else none
      else none
    | [] => none
  else none

/-- Leftmost match of one credit pattern in `s`. -/
def findAuthor (word s : List Char) : Option (List Char) :=
  match s with
  | [] => none
  | _ :: rest =>
    match tryAuthorAt word s with
    | some r => some r
    | none => findAuthor word rest

/-- The credit labels scanned for, in source order. -/
def authorWords : List (List Char) := [lc "music", lc "作曲", lc "作词", lc "Lyrics"]

/-- First credit pattern with a match wins; its capture is trimmed. -/
def firstAuthorMatch (words : List (List Char)) (desc : List Char) : Option (List Char) :=
  match words with
  | [] => none
  | w :: rest =>
    match findAuthor w desc with
    | some cap => some (trimList cap)
    | none => firstAuthorMatch rest desc

/-- `extract_authors`: scanned from the resolved description. -/
def extract_authors (doc : Doc) : Except DlError (Option (List Char)) :=
  match extract_description doc with
  | .error e => .error e
  | .ok none => .ok none
  | .ok (some desc) => .ok (firstAuthorMatch authorWords desc)

/-- `DizzylabClient::get_album_details`: `fetched` is the result of the detail-page
request; a fetch failure propagates, and after a successful fetch every field is
rewritten from the page (title and label only when still the caller-supplied
defaults). -/
def get_album_details (fetched : Except DlError Doc) (album : Album) :
    Except DlError Album :=
  match fetched with
  | .error e => .error e
  | .ok doc => do
    let title ←
      if album.title = unknownTitle then do
        let o ← extract_title doc
        pure (o.getD album.title)
      else pure album.title
    let label ←
      if album.label = unknownLabel then do
        let o ← extract_label doc
        pure (o.getD album.label)
      else pure album.label
    let rd ← extract_release_date doc
    let desc ← extract_description doc
    let tags := extract_tags doc
    let yr ← extract_year doc
    let auth ← extract_authors doc
    pure { album with
      title := title, label := label, release_date := rd, description := desc,
      tags := tags, year := yr, authors := auth }

/-! ## Download-link resolution (src/client.rs `extract_download_key`,
`get_download_links`) -/

/-- The regex `k=([^&]+)` applied to an `href`: leftmost `k=` followed by a non-empty
run of non-`&` characters; an empty capture position is skipped and the scan goes on. -/
def kCapture (s : List Char) : Option (List Char) :=
  match s with
  | 'k' :: '=' :: rest =>
    let cap := rest.takeWhile fun x => x ≠ '&'
    if cap.isEmpty then kCapture ('=' :: rest) else some cap
  | _ :: rest => kCapture rest
  | [] => none

/-- The `tp` query value for a non-gift format (the source's `match` maps the three
known formats to themselves and passes anything else through). -/
def tp_param (format : List Char) : List Char :=
  if format = lc "128" then lc "128"
  else if format = lc "MP3" then lc "MP3"
  else if format = lc "FLAC" then lc "FLAC"
  else format

/-- The gift anchor marker `a[href*="/albums/download_gift/"]`. -/
def giftMarker : List Char := lc "/albums/download_gift/"

/-- `DizzylabClient::extract_download_key`: select the first anchor whose href contains
the format's marker and capture its `k=` parameter; every failure path is the same
"cannot extract download key" error. -/
def extract_download_key (doc : Doc) (format : List Char) : Except DlError (List Char) :=
  if format = lc "gift" then
    match doc.anchorHrefs.find? (fun h => containsSub h giftMarker) with
    | some href =>
      match kCapture href with
      | some key => .ok key
      | none => .error .keyNotFound
    | none => .error .keyNotFound
  else
    match doc.anchorHrefs.find? (fun h => containsSub h (lc "tp=" ++ tp_param format)) with
    | some href =>
      match kCapture href with
      | some key => .ok key
      | none => .error .keyNotFound
    | none => .error .keyNotFound

/-- `DizzylabClient::get_download_links`: `fetched` is the detail-page request's result.
A missing key for `"gift"` is the empty map (no gift content, not an error); for any
other format it is a hard error.  On success the per-format URL is built from one of
the two templates and returned as a singleton map. -/
def get_download_links (fetched : Except DlError Doc) (album_id format : List Char) :
    Except DlError (List (List Char × List Char)) :=
  match fetched with
  | .error e => .error e
  | .ok doc =>
    match extract_download_key doc format with
    | .ok key =>
      let url :=
        if format = lc "gift" then
          lc "https://www.dizzylab.net/albums/download_gift/" ++ album_id ++ lc "/?k=" ++ key
        else
          lc "https://www.dizzylab.net/albums/download/?d=" ++ album_id ++
            lc "&tp=" ++ format ++ lc "&k=" ++ key
      .ok [(format, url)]
    | .error _ =>
      if format = lc "gift" then .ok []
      else .error .keyNotFound

/-- `HashMap::get` on the (singleton) link map. -/
def mapGet (m : List (List Char × List Char)) (k : List Char) : Option (List Char) :=
  (m.find? fun p => p.1 = k).map (·.2)

/-! ## Catalog walk (src/client.rs `get_user_albums`) -/

/-- The pagination loop: `pages` is the sequence of successful server responses for the
successive requests; each iteration appends the page's albums, records the requested
offset (the `l` parameter; `r` is always `l + 20`), and continues only while
`canshowmore`.  `none` means the provided response sequence was exhausted while the
server still reported more, i.e. the loop would issue yet another request. -/
def walkAux (offset : Nat) (pages : List CatalogPage) : Option (List Album × List Nat) :=
  match pages with
  | [] => none
  | p :: rest =>
    if p.can_show_more then
      match walkAux (offset + 20) rest with
      | some (albums, offs) => some (p.discs ++ albums, offset :: offs)
      | none => none
    else some (p.discs, [offset])

/-- `DizzylabClient::get_user_albums`, starting at offset 0. -/
def get_user_albums (pages : List CatalogPage) : Option (List Album × List Nat) :=
  walkAux 0 pages

/-! ## Sync orchestrator (src/downloader.rs) -/

/-- The pre-processing `sync_all_albums` applies to each album before
`download_album` (lines 47–53): an album with no release date has its mutable
metadata fields reset. -/
def preprocess_album (a : Album) : Album :=
  if a.release_date = none then
    { a with release_date := none, description := none, tags := [],
             year := none, authors := none }
  else a

/-- One HTTP request the per-item pipeline issues. -/
inductive NetEvent where
  /-- `get_album_details`'s detail-page request. -/
  | detailPage (id : List Char)
  /-- `get_download_links`'s detail-page request for one format. -/
  | keyPage (id format : List Char)
  /-- `download_file`'s authenticated content request. -/
  | content (url : List Char)
  /-- The single unauthenticated CDN follow-up of a redirect. -/
  | cdn (url : List Char)
deriving DecidableEq

inductive ItemOutcome where
  | skipped
  | metadataOnly
  | done
deriving DecidableEq

/-- The requests `download_file` issues for `url` (mirrors `download_file`'s branches). -/
def download_file_events (net : NetModel) (url : List Char) : List NetEvent :=
  match net.response url with
  | .error _ => [.content url]
  | .ok resp =>
    if is_redirection resp.status then
      match resp.location with
      | some loc => [.content url, .cdn loc]
      | none => [.content url]
    else [.content url]

/-- `Downloader::download_format` with its request trace: resolve the links (one
detail-page request), stop silently on an empty gift result, fetch the content, then
classify/extract to disk (`net.extractResult` stands for the archive and filesystem
work after the bytes arrive, which issues no requests). -/
def download_format (net : NetModel) (album : Album) (format : List Char) :
    Except DlError Unit × List NetEvent :=
  match get_download_links (net.keyPage format) album.id format with
  | .error e => (.error e, [.keyPage album.id format])
  | .ok links =>
    if links.isEmpty then (.ok (), [.keyPage album.id format])
    else
      match mapGet links format with
      | none => (.error .linkMissing, [.keyPage album.id format])
      | some url =>
        match download_file net url with
        | .error e => (.error e, .keyPage album.id format :: download_file_events net url)
        | .ok bytes =>
          (net.extractResult bytes, .keyPage album.id format :: download_file_events net url)

/-- The enriched album after the (non-fatal) metadata step of `download_album`: a fetch
failure leaves every field untouched. -/
def enrich (fetched : Except DlError Doc) (album : Album) : Album :=
  match get_album_details fetched album with
  | .ok a => a
  | .error _ => album

/-- Requests of the format loop; a per-format failure is logged and the loop
continues (`continue`), so only the traces accumulate. -/
def formats_events (net : NetModel) (album : Album) : List (List Char) → List NetEvent
  | [] => []
  | f :: rest => (download_format net album f).2 ++ formats_events net album rest

/-- `Downloader::download_album` with its request trace: metadata fetch (non-fatal),
directory check, then — unless skipped — sidecars (filesystem only, failures warned)
and the format loop.  `fs::create_dir_all` is infallible in the model; its error path
only aborts the item without further requests. -/
def download_album (cfg : Config) (net : NetModel) (currentYear currentDate : List Char)
    (album : Album) : Except DlError ItemOutcome × List NetEvent :=
  let album1 := enrich net.detailPage album
  let albumDir := get_album_directory cfg album1 currentYear currentDate
  if cfg.behavior.skip_existing && net.dirExists albumDir then
    (.ok .skipped, [.detailPage album.id])
  else if cfg.behavior.metadata_only then
    (.ok .metadataOnly, [.detailPage album.id])
  else
    (.ok .done, .detailPage album.id :: formats_events net album1 cfg.download.formats)

/-! ## Concrete instances used by the closed theorems below -/

/-- A concrete album without a release date (title only). -/
def albumNoDate : Album where
  id := lc "dts"
  title := lc "T"
  label := lc "L"
  cover := lc ""
  only_have_gift := false
  release_date := none
  description := some (lc "old description")
  tags := [lc "tag"]
  year := some (lc "2020")
  authors := some (lc "A")

/-- A concrete album with a release date. -/
def albumWithDate : Album :=
  { albumNoDate with release_date := some (lc "2025年6月10日") }

/-- An album whose year field smuggles placeholder text and whitespace. -/
def albumYearPlaceholder : Album := { albumNoDate with year := some (lc " {album} ") }

/-- A detail page with no elements at all. -/
def docEmpty : Doc where
  titleText := none
  h1Texts := []
  labelRegionTexts := []
  labelLinkTexts := []
  pTexts := []
  h3Texts := []
  tagAnchorTexts := []
  anchorHrefs := []

/-- A flatten-mode configuration. -/
def cfgFlat : Config where
  download := { formats := [lc "FLAC"], flatten := true }
  paths := { output_dir := lc "out", directory_template := lc "{album}" }
  behavior := { skip_existing := true, single_threaded := true, generate_readme := true,
                generate_nfo := true, metadata_only := false, debug := false }

/-- The same configuration with format subfolders. -/
def cfgSub : Config :=
  { cfgFlat with download := { formats := [lc "FLAC"], flatten := false } }

/-- A network whose every response is a 404 carrying body `[1, 2, 3]`. -/
def netC3 : NetModel where
  detailPage := .error .transport
  keyPage := fun _ => .error .transport
  response := fun _ => .ok { status := 404, location := none, body := [1, 2, 3] }
  cdnBody := fun _ => .error .transport
  dirExists := fun _ => false
  extractResult := fun _ => .ok ()

/-- A network where the target directory always exists and every download request
fails; the detail page fetch succeeds with an empty page. -/
def netSkip : NetModel where
  detailPage := .ok docEmpty
  keyPage := fun _ => .ok docEmpty
  response := fun _ => .error .transport
  cdnBody := fun _ => .error .transport
  dirExists := fun _ => true
  extractResult := fun _ => .ok ()

/-! ## Theorems -/

theorem replaceListF_of_not_contains (fuel : Nat) (s pat rep : List Char)
    (h : containsSub s pat = false) : replaceListF fuel s pat rep = s := by
  induction fuel generalizing s with
  | zero => cases s <;> rfl
  | succ fuel ih =>
    cases s with
    | nil => rfl
    | cons c rest =>
      simp only [containsSub, Bool.or_eq_false_iff] at h
      rw [replaceListF, if_neg, ih rest h.2]
      rintro ⟨-, hpre⟩
      rw [h.1] at hpre
      exact Bool.false_ne_true hpre

theorem replaceList_of_not_contains (s pat rep : List Char)
    (h : containsSub s pat = false) : replaceList s pat rep = s :=
  replaceListF_of_not_contains s.length s pat rep h

theorem magic_prefix_iff (data m : List Nat) (n : Nat) (hm : m.length = n) :
    (n ≤ data.length ∧ data.take n = m) ↔ m.isPrefixOf data := by
  rw [List.isPrefixOf_iff_prefix, List.prefix_iff_eq_take, hm]
  constructor
  · rintro ⟨-, h2⟩
    exact h2.symm
  · intro h
    have hl : m.length = min n data.length := by rw [h, List.length_take]
    rw [hm] at hl
    have := Nat.min_le_right n data.length
    exact ⟨by omega, h.symm⟩

theorem detect_eq_specClassify (data : List Nat) :
    detect_archive_format data = specClassify data := by
  have h5 : (8 ≤ data.length ∧ data.take 8 = rar5Magic) ↔ rar5Magic.isPrefixOf data :=
    magic_prefix_iff data rar5Magic 8 rfl
  have h4 : (7 ≤ data.length ∧ data.take 7 = rar4Magic) ↔ rar4Magic.isPrefixOf data :=
    magic_prefix_iff data rar4Magic 7 rfl
  unfold detect_archive_format specClassify
  simp only [h5, h4]
  split_ifs with g1 g2 g3 g4 g5 <;> simp_all

theorem isPrefixOf_take8 (data : List Nat) (m : List Nat) (hm : m.length ≤ 8) :
    m.isPrefixOf (data.take 8) = m.isPrefixOf data := by
  rw [Bool.eq_iff_iff, List.isPrefixOf_iff_prefix, List.isPrefixOf_iff_prefix,
    List.prefix_take_iff]
  exact ⟨fun h => h.1, fun h => ⟨h, hm⟩⟩

theorem specClassify_take8 (data : List Nat) :
    specClassify (data.take 8) = specClassify data := by
  unfold specClassify
  rw [isPrefixOf_take8 data zipMagic (by decide),
    isPrefixOf_take8 data rar5Magic (by decide),
    isPrefixOf_take8 data rar4Magic (by decide), List.length_take]
  have hlt : (min 8 data.length < 4) ↔ (data.length < 4) := by omega
  simp only [hlt]

/-- C5: archive classification is pure over the first 8 bytes, and agrees with the
spec's reading: buffers under 4 bytes are Unknown, then a `PK` prefix is Zip, a prefix
by either documented Rar magic (8-byte RAR5 or 7-byte RAR4) is Rar, anything else is
Unknown. -/
theorem C5_detect_archive_format (data : List Nat) :
    detect_archive_format data = specClassify data ∧
    detect_archive_format data = detect_archive_format (data.take 8) := by
  refine ⟨detect_eq_specClassify data, ?_⟩
  rw [detect_eq_specClassify, detect_eq_specClassify, specClassify_take8]

/-- C3 is false on the code: on a response with status 404 — neither a success nor a
redirection — `download_file` returns `ok` with the response body as content bytes;
no error carrying the status code is produced. -/
theorem C3_counterexample :
    is_success 404 = false ∧ is_redirection 404 = false ∧
    download_file netC3 (lc "http://x/f") = .ok [1, 2, 3] :=
  ⟨rfl, rfl, rfl⟩

/-- C3 amended: `download_file` performs no status check — any non-redirection response,
success or not, has its body returned as the content bytes.  The error carrying the
numeric status code exists only in `download_cover`, which fails on every non-success
status. -/
theorem C3_amended_fetch_ignores_status (net : NetModel) (url : List Char)
    (resp : HttpResponse) (hresp : net.response url = .ok resp) :
    (is_redirection resp.status = false → download_file net url = .ok resp.body) ∧
    (url ≠ [] → is_success resp.status = false →
      download_cover net url = .error (.statusCode resp.status)) := by
  constructor
  · intro hred
    unfold download_file
    rw [hresp]
    simp [hred]
  · intro hne hsucc
    unfold download_cover
    rw [if_neg hne, hresp]
    simp [hsucc]

/-- Witness for C3's amended theorem at the concrete 404 environment. -/
theorem C3_amended_witness :
    download_file netC3 (lc "http://x/f") = .ok [1, 2, 3] ∧
    download_cover netC3 (lc "http://x/f") = .error (.statusCode 404) :=
  ⟨(C3_amended_fetch_ignores_status netC3 (lc "http://x/f") _ rfl).1 rfl,
   (C3_amended_fetch_ignores_status netC3 (lc "http://x/f") _ rfl).2 (by decide) rfl⟩

/-- C10: before per-item processing, an album whose release date is absent has its
description, year and authors cleared to absent and its tags to empty, while id, title,
label, cover and the gift-only flag are untouched; an album with a release date is not
modified at all. -/
theorem C10_preprocess_album (a : Album) :
    (a.release_date = none →
      (preprocess_album a).description = none ∧
      (preprocess_album a).tags = [] ∧
      (preprocess_album a).year = none ∧
      (preprocess_album a).authors = none ∧
      (preprocess_album a).release_date = none ∧
      (preprocess_album a).id = a.id ∧
      (preprocess_album a).title = a.title ∧
      (preprocess_album a).label = a.label ∧
      (preprocess_album a).cover = a.cover ∧
      (preprocess_album a).only_have_gift = a.only_have_gift) ∧
    (a.release_date ≠ none → preprocess_album a = a) := by
  constructor
  · intro h
    simp [preprocess_album, h]
  · intro h
    simp [preprocess_album, h]

/-- Witness for C10 at concrete albums with and without a release date. -/
theorem C10_preprocess_album_witness :
    (preprocess_album albumNoDate).description = none ∧
    preprocess_album albumWithDate = albumWithDate :=
  ⟨((C10_preprocess_album albumNoDate).1 rfl).1,
   (C10_preprocess_album albumWithDate).2 (by decide)⟩

/-- C2: on a fetched detail page with no anchor whose href carries the gift download
marker, resolving format "gift" returns the empty link map and no error; for any other
format, the absence of an anchor whose href carries that format's `tp=` query marker
makes resolution return an error. -/
theorem C2_gift_empty_other_error (doc : Doc) (album_id format : List Char) :
    ((∀ h ∈ doc.anchorHrefs, containsSub h giftMarker = false) →
      get_download_links (.ok doc) album_id (lc "gift") = .ok []) ∧
    (format ≠ lc "gift" →
      (∀ h ∈ doc.anchorHrefs, containsSub h (lc "tp=" ++ tp_param format) = false) →
      get_download_links (.ok doc) album_id format = .error .keyNotFound) := by
  constructor
  · intro hall
    have hf : doc.anchorHrefs.find? (fun h => containsSub h giftMarker) = none := by
      rw [List.find?_eq_none]
      intro x hx
      simp [hall x hx]
    simp [get_download_links, extract_download_key, hf]
  · intro hne hall
    have hf : doc.anchorHrefs.find?
        (fun h => containsSub h (lc "tp=" ++ tp_param format)) = none := by
      rw [List.find?_eq_none]
      intro x hx
      simp [hall x hx]
    simp [get_download_links, extract_download_key, hf, hne]

/-- Witness for C2 on the empty detail page: gift resolves to the empty map, FLAC to an
error. -/
theorem C2_gift_empty_other_error_witness :
    get_download_links (.ok docEmpty) (lc "dts") (lc "gift") = .ok [] ∧
    get_download_links (.ok docEmpty) (lc "dts") (lc "FLAC") = .error .keyNotFound :=
  ⟨(C2_gift_empty_other_error docEmpty (lc "dts") (lc "FLAC")).1 (by decide),
   (C2_gift_empty_other_error docEmpty (lc "dts") (lc "FLAC")).2 (by decide) (by decide)⟩

theorem extract_title_isOk (doc : Doc) : ∃ o, extract_title doc = .ok o := by
  unfold extract_title
  cases doc.titleText with
  | some t => exact ⟨_, rfl⟩
  | none =>
    cases doc.h1Texts with
    | nil => exact ⟨_, rfl⟩
    | cons h rest =>
      dsimp only
      split
      · exact ⟨_, rfl⟩
      · exact ⟨_, rfl⟩

theorem extract_label_isOk (doc : Doc) : ∃ o, extract_label doc = .ok o := by
  unfold extract_label
  cases doc.labelRegionTexts with
  | nil =>
    cases doc.labelLinkTexts with
    | nil => exact ⟨_, rfl⟩
    | cons u us =>
      dsimp only
      split
      · exact ⟨_, rfl⟩
      · exact ⟨_, rfl⟩
  | cons t ts =>
    dsimp only
    split
    · exact ⟨_, rfl⟩
    · cases doc.labelLinkTexts with
      | nil => exact ⟨_, rfl⟩
      | cons u us =>
        dsimp only
        split
        · exact ⟨_, rfl⟩
        · exact ⟨_, rfl⟩

theorem extract_year_isOk (doc : Doc) : ∃ o, extract_year doc = .ok o := by
  unfold extract_year extract_release_date
  cases firstRelDate doc.pTexts <;> exact ⟨_, rfl⟩

theorem extract_authors_isOk (doc : Doc) : ∃ o, extract_authors doc = .ok o := by
  unfold extract_authors extract_description
  cases firstLongH3 doc.h3Texts <;> exact ⟨_, rfl⟩

/-- C9: metadata resolution fails exactly when the detail-page fetch fails.  Every
per-field extractor on a fetched page returns `ok` — a field it cannot find is an
absent (`none`) value, never an error — and resolution as a whole then succeeds. -/
theorem C9_details_error_iff_fetch (album : Album) :
    (∀ e, get_album_details (.error e) album = .error e) ∧
    (∀ doc : Doc,
      (∃ o, extract_title doc = .ok o) ∧
      (∃ o, extract_label doc = .ok o) ∧
      (∃ o, extract_release_date doc = .ok o) ∧
      (∃ o, extract_description doc = .ok o) ∧
      (∃ o, extract_year doc = .ok o) ∧
      (∃ o, extract_authors doc = .ok o) ∧
      (∃ a' : Album, get_album_details (.ok doc) album = .ok a')) := by
  constructor
  · intro e
    rfl
  · intro doc
    obtain ⟨t, ht⟩ := extract_title_isOk doc
    obtain ⟨l, hl⟩ := extract_label_isOk doc
    obtain ⟨y, hy⟩ := extract_year_isOk doc
    obtain ⟨a, ha⟩ := extract_authors_isOk doc
    refine ⟨⟨t, ht⟩, ⟨l, hl⟩, ⟨_, rfl⟩, ⟨_, rfl⟩, ⟨y, hy⟩, ⟨a, ha⟩, ?_⟩
    unfold get_album_details
    by_cases htitle : album.title = unknownTitle <;>
      by_cases hlabel : album.label = unknownLabel <;>
        simp [htitle, hlabel, ht, hl, hy, ha, extract_release_date, extract_description,
          Except.bind, bind]
    all_goals exact ⟨_, rfl⟩

theorem digits2or1_exact (sep : Char) (m T : List Char) (h1 : 1 ≤ m.length)
    (h2 : m.length ≤ 2) (hd : ∀ c ∈ m, c.isDigit) (hsep : sep.isDigit = false) :
    digits2or1 sep (m ++ sep :: T) = some (m, T) := by
  match m, h1, h2 with
  | [m1], _, _ =>
    cases T with
    | nil => simp [digits2or1, hd m1 (by simp)]
    | cons t1 tr => simp [digits2or1, hd m1 (by simp), hsep]
  | [m1, m2], _, _ =>
    simp [digits2or1, hd m1 (by simp), hd m2 (by simp)]

theorem tryMatchDate_shape (y m d post : List Char)
    (hy : y.length = 4) (hyd : ∀ c ∈ y, c.isDigit = true)
    (hm1 : 1 ≤ m.length) (hm2 : m.length ≤ 2) (hmd : ∀ c ∈ m, c.isDigit = true)
    (hd1 : 1 ≤ d.length) (hd2 : d.length ≤ 2) (hdd : ∀ c ∈ d, c.isDigit = true) :
    tryMatchDate (y ++ '年' :: (m ++ '月' :: (d ++ '日' :: post))) = some (y, m, d) := by
  match y, hy with
  | [a, b, c, d4], _ =>
    have hM : digits2or1 '月' (m ++ '月' :: (d ++ '日' :: post)) =
        some (m, d ++ '日' :: post) :=
      digits2or1_exact '月' m (d ++ '日' :: post) hm1 hm2 hmd (by decide)
    have hD : digits2or1 '日' (d ++ '日' :: post) = some (d, post) :=
      digits2or1_exact '日' d post hd1 hd2 hdd (by decide)
    simp [tryMatchDate, hyd a (by simp), hyd b (by simp), hyd c (by simp),
      hyd d4 (by simp), hM, hD]

theorem findDate_suffix (s1 s2 : List Char) (h : (tryMatchDate s2).isSome) :
    (findDate (s1 ++ s2)).isSome := by
  induction s1 with
  | nil =>
    cases s2 with
    | nil => simp [tryMatchDate] at h
    | cons c rest =>
      rw [List.nil_append]
      cases htry : tryMatchDate (c :: rest) with
      | some r => simp [findDate, htry]
      | none => rw [htry] at h; simp at h
  | cons c s1' ih =>
    rw [List.cons_append]
    cases htry : tryMatchDate (c :: (s1' ++ s2)) with
    | some r => simp [findDate, htry]
    | none => simpa [findDate, htry] using ih

/-- C7: `"2025年6月10日"` converts to `"2025-06-10"` (month and day zero-padded to two
digits); a string in which the localized date pattern matches nowhere (`findDate`
returns nothing) passes through unchanged — and `findDate` returning nothing really
does mean the string contains no `\d{4}年\d{1,2}月\d{1,2}日` substring. -/
theorem C7_convert_chinese_date (s : List Char) (h : findDate s = none) :
    convert_chinese_date_to_iso (lc "2025年6月10日") = lc "2025-06-10" ∧
    convert_chinese_date_to_iso s = s ∧
    (∀ pre y m d post : List Char, y.length = 4 → (∀ c ∈ y, c.isDigit = true) →
      1 ≤ m.length → m.length ≤ 2 → (∀ c ∈ m, c.isDigit = true) →
      1 ≤ d.length → d.length ≤ 2 → (∀ c ∈ d, c.isDigit = true) →
      s ≠ pre ++ (y ++ '年' :: (m ++ '月' :: (d ++ '日' :: post)))) := by
  refine ⟨by decide, ?_, ?_⟩
  · unfold convert_chinese_date_to_iso
    rw [h]
  · intro pre y m d post hy hyd hm1 hm2 hmd hd1 hd2 hdd heq
    have hsome : (findDate s).isSome := by
      rw [heq]
      exact findDate_suffix pre _ (by rw [tryMatchDate_shape y m d post hy hyd hm1 hm2 hmd hd1 hd2 hdd]; rfl)
    rw [h] at hsome
    simp at hsome

/-- Witness for C7 at a concrete non-matching string. -/
theorem C7_convert_chinese_date_witness :
    convert_chinese_date_to_iso (lc "2025年6月10日") = lc "2025-06-10" ∧
    convert_chinese_date_to_iso (lc "hello 2025年 world") = lc "hello 2025年 world" :=
  ⟨(C7_convert_chinese_date (lc "hello 2025年 world") (by decide)).1,
   (C7_convert_chinese_date (lc "hello 2025年 world") (by decide)).2.1⟩

theorem walkAux_none (off : Nat) (pages : List CatalogPage)
    (h : ∀ p ∈ pages, p.can_show_more = true) : walkAux off pages = none := by
  induction pages generalizing off with
  | nil => rfl
  | cons p rest ih =>
    have h1 : p.can_show_more = true := h p (by simp)
    have h2 := ih (off + 20) (fun q hq => h q (by simp [hq]))
    simp [walkAux, h1, h2]

theorem map_offset_range (off n : Nat) :
    (List.range (n + 1)).map (fun k => off + 20 * k) =
      off :: (List.range n).map (fun k => (off + 20) + 20 * k) := by
  rw [List.range_succ_eq_map]
  simp only [List.map_cons, List.map_map, Nat.mul_zero, Nat.add_zero]
  refine congrArg (List.cons off) (List.map_congr_left ?_)
  intro k _
  simp only [Function.comp]
  omega

theorem walkAux_spec (off : Nat) (pre post : List CatalogPage) (last : CatalogPage)
    (hpre : ∀ p ∈ pre, p.can_show_more = true) (hlast : last.can_show_more = false) :
    walkAux off (pre ++ last :: post) =
      some ((pre.map CatalogPage.discs).flatten ++ last.discs,
            (List.range (pre.length + 1)).map (fun k => off + 20 * k)) := by
  induction pre generalizing off with
  | nil =>
    simp [walkAux, hlast, List.range_succ_eq_map]
  | cons p pre' ih =>
    have hp : p.can_show_more = true := hpre p (by simp)
    have hpre' : ∀ q ∈ pre', q.can_show_more = true := fun q hq => hpre q (by simp [hq])
    rw [List.cons_append]
    simp only [walkAux, hp, if_true, ih (off + 20) hpre']
    simp only [List.map_cons, List.flatten_cons, List.append_assoc, List.length_cons]
    rw [map_offset_range off (pre'.length + 1)]

/-- C8: the catalog walk requests pages at the fixed offsets 0, 20, 40, …; it stops
exactly after the first page whose has-more flag is false (later responses are never
requested), returning the pages' item lists concatenated in server order; and if every
provided response still reports more, the walk consumes them all and keeps going
(no result within the provided sequence). -/
theorem C8_catalog_walk (pre post : List CatalogPage) (last : CatalogPage)
    (hpre : ∀ p ∈ pre, p.can_show_more = true) (hlast : last.can_show_more = false) :
    get_user_albums (pre ++ last :: post) =
      some ((pre.map CatalogPage.discs).flatten ++ last.discs,
            (List.range (pre.length + 1)).map (fun k => 20 * k)) ∧
    (∀ pages : List CatalogPage, (∀ p ∈ pages, p.can_show_more = true) →
      get_user_albums pages = none) := by
  constructor
  · rw [get_user_albums, walkAux_spec 0 pre post last hpre hlast]
    refine congrArg some (Prod.ext rfl (List.map_congr_left ?_))
    intro k _
    omega
  · intro pages hall
    exact walkAux_none 0 pages hall

/-- Witness for C8 on a concrete three-page response sequence: the walk stops after the
second page (the first with `canshowmore = false`), returns the first two pages' items
in order, and requested offsets 0 and 20. -/
theorem C8_catalog_walk_witness :
    get_user_albums [⟨[albumNoDate], true⟩, ⟨[albumWithDate], false⟩, ⟨[], true⟩] =
      some ([albumNoDate, albumWithDate], [0, 20]) := by
  have h := (C8_catalog_walk [⟨[albumNoDate], true⟩] [⟨[], true⟩]
    ⟨[albumWithDate], false⟩ (by decide) rfl).1
  simpa using h

/-- C4 is false on the code: with flatten=true, the zip member stored as
`disc1/01.flac` is written at `out/T/disc1/01.flac` — the stored sub-path head `disc1`
is preserved, not discarded, so the file is not directly under the item directory. -/
theorem C4_counterexample :
    extract_zip_paths cfgFlat (lc "out/T") (lc "FLAC") [lc "disc1/01.flac"] =
      [lc "out/T/disc1/01.flac"] ∧
    isDirectlyUnder (lc "out/T") (lc "out/T/disc1/01.flac") = false := by
  exact ⟨rfl, by decide⟩

theorem extract_zip_paths_eq (cfg : Config) (dir fmt : List Char)
    (names : List (List Char)) :
    extract_zip_paths cfg dir fmt names =
      (names.filter fun n => !(n.getLast? == some '/')).map (zipMemberPath cfg dir fmt) := by
  induction names with
  | nil => rfl
  | cons n rest ih =>
    by_cases h : n.getLast? = some '/'
    · simp [extract_zip_paths, h, ih]
    · simp [extract_zip_paths, h, ih]

theorem process_rar_paths_eq (cfg : Config) (dir fmt : List Char)
    (entries : List RarEntry) :
    process_rar_paths cfg dir fmt entries =
      (entries.filter fun e => !e.is_directory).map
        (fun e => zipMemberPath cfg dir fmt e.filename) := by
  induction entries with
  | nil => rfl
  | cons e rest ih =>
    by_cases h : e.is_directory
    · simp [process_rar_paths, h, ih]
    · simp [process_rar_paths, h, ih]

/-- C4 amended: with flatten=true each non-directory member (zip or rar) is written at
`<item_dir>/<stored name>` — the full stored sub-path is preserved, with no format
subfolder inserted — while flatten=false writes it at `<item_dir>/<format>/<stored
name>`; members are written in archive order, directories skipped. -/
theorem C4_amended_member_placement (cfg : Config) (dir fmt : List Char)
    (names : List (List Char)) (entries : List RarEntry) :
    (cfg.download.flatten = true →
      extract_zip_paths cfg dir fmt names =
        (names.filter fun n => !(n.getLast? == some '/')).map (fun n => pathJoin dir n) ∧
      process_rar_paths cfg dir fmt entries =
        (entries.filter fun e => !e.is_directory).map (fun e => pathJoin dir e.filename)) ∧
    (cfg.download.flatten = false →
      extract_zip_paths cfg dir fmt names =
        (names.filter fun n => !(n.getLast? == some '/')).map
          (fun n => pathJoin (pathJoin dir fmt) n) ∧
      process_rar_paths cfg dir fmt entries =
        (entries.filter fun e => !e.is_directory).map
          (fun e => pathJoin (pathJoin dir fmt) e.filename)) := by
  constructor
  · intro hflat
    rw [extract_zip_paths_eq, process_rar_paths_eq]
    constructor <;> simp [zipMemberPath, hflat]
  · intro hsub
    rw [extract_zip_paths_eq, process_rar_paths_eq]
    constructor <;> simp [zipMemberPath, hsub]

/-- Witness for C4's amended placement at a concrete two-member archive with one
directory entry, in both modes. -/
theorem C4_amended_member_placement_witness :
    extract_zip_paths cfgFlat (lc "out/T") (lc "FLAC")
        [lc "disc1/01.flac", lc "disc1/", lc "02.flac"] =
      [lc "out/T/disc1/01.flac", lc "out/T/02.flac"] ∧
    extract_zip_paths cfgSub (lc "out/T") (lc "FLAC") [lc "01.flac", lc "02.flac"] =
      [lc "out/T/FLAC/01.flac", lc "out/T/FLAC/02.flac"] := by
  constructor
  · have h := (C4_amended_member_placement cfgFlat (lc "out/T") (lc "FLAC")
      [lc "disc1/01.flac", lc "disc1/", lc "02.flac"] []).1 rfl
    rw [h.1]
    decide
  · have h := (C4_amended_member_placement cfgSub (lc "out/T") (lc "FLAC")
      [lc "01.flac", lc "02.flac"] []).2 rfl
    rw [h.1]
    decide

/-- C6 is false on the code: the `{year}` value is substituted verbatim — neither
whitespace-trimmed nor sanitized — and substitution is not idempotent: a second pass
rewrites the `{album}` text the first pass injected. -/
theorem C6_counterexample :
    substTemplate (lc "{year}") albumYearPlaceholder (lc "2025") (lc "2025-01-01") =
      lc " {album} " ∧
    substTemplate
        (substTemplate (lc "{year}") albumYearPlaceholder (lc "2025") (lc "2025-01-01"))
        albumYearPlaceholder (lc "2025") (lc "2025-01-01") = lc " T " ∧
    lc " {album} " ≠ lc " T " := by
  exact ⟨by decide, by decide, by decide⟩

theorem mem_trimList (c : Char) (l : List Char) (h : c ∈ trimList l) : c ∈ l := by
  unfold trimList at h
  rw [List.mem_reverse] at h
  have h1 := (List.dropWhile_sublist _).subset h
  rw [List.mem_reverse] at h1
  exact (List.dropWhile_sublist _).subset h1

theorem substTemplate_id (s : List Char) (a : Album) (cy cd : List Char)
    (h : ∀ p ∈ placeholderPatterns, containsSub s p = false) :
    substTemplate s a cy cd = s := by
  have h1 := h (lc "{album}") (by simp [placeholderPatterns])
  have h2 := h (lc "{label}") (by simp [placeholderPatterns])
  have h3 := h (lc "{authors}") (by simp [placeholderPatterns])
  have h4 := h (lc "{year}") (by simp [placeholderPatterns])
  have h5 := h (lc "{date}") (by simp [placeholderPatterns])
  unfold substTemplate
  simp only [replaceList_of_not_contains _ _ _ h1, replaceList_of_not_contains _ _ _ h2,
    replaceList_of_not_contains _ _ _ h3, replaceList_of_not_contains _ _ _ h4,
    replaceList_of_not_contains _ _ _ h5]

/-- C6 amended: substitution is total; the `{album}`, `{label}` and `{authors}` values
are sanitized — no reserved character survives `sanitize_filename` — while `{year}` and
`{date}` values are substituted verbatim (unsanitized, untrimmed); a template containing
no recognized placeholder is returned unchanged (so unrecognized placeholder text is
left verbatim); and substitution is idempotent whenever its result contains no
recognized placeholder — in particular whenever no substituted value injects
placeholder text. -/
theorem C6_amended_template_substitution (t : List Char) (a : Album) (cy cd : List Char) :
    (∀ s : List Char, ∀ c ∈ sanitize_filename s, reservedChar c = false) ∧
    ((∀ p ∈ placeholderPatterns, containsSub t p = false) →
      substTemplate t a cy cd = t) ∧
    ((∀ p ∈ placeholderPatterns, containsSub (substTemplate t a cy cd) p = false) →
      substTemplate (substTemplate t a cy cd) a cy cd = substTemplate t a cy cd) := by
  refine ⟨?_, fun h => substTemplate_id t a cy cd h,
    fun h => substTemplate_id _ a cy cd h⟩
  intro s c hc
  have hmem : c ∈ s.map sanitizeChar := mem_trimList c _ hc
  obtain ⟨b, -, rfl⟩ := List.mem_map.mp hmem
  unfold sanitizeChar
  by_cases hb : reservedChar b
  · rw [if_pos hb]
    decide
  · rw [if_neg hb]
    exact Bool.eq_false_iff.mpr hb

/-- Witness for C6's amended theorem: a placeholder-free template passes through, and
substitution of a plain album is idempotent. -/
theorem C6_amended_template_substitution_witness :
    substTemplate (lc "release {foo}") albumNoDate (lc "2025") (lc "2025-01-01") =
      lc "release {foo}" ∧
    substTemplate
        (substTemplate (lc "{album}-{date}") albumNoDate (lc "2025") (lc "2025-01-01"))
        albumNoDate (lc "2025") (lc "2025-01-01") =
      substTemplate (lc "{album}-{date}") albumNoDate (lc "2025") (lc "2025-01-01") :=
  ⟨(C6_amended_template_substitution (lc "release {foo}") albumNoDate
      (lc "2025") (lc "2025-01-01")).2.1 (by decide),
   (C6_amended_template_substitution (lc "{album}-{date}") albumNoDate
      (lc "2025") (lc "2025-01-01")).2.2 (by decide)⟩

/-- C1 is false on the code: with skip-existing on and the target directory present,
the per-item pipeline still issues one HTTP request — the metadata detail-page fetch,
which precedes the directory check — before returning SKIPPED. -/
theorem C1_counterexample :
    (download_album cfgFlat netSkip (lc "2025") (lc "2025-01-01") albumNoDate).1 =
      .ok .skipped ∧
    (download_album cfgFlat netSkip (lc "2025") (lc "2025-01-01") albumNoDate).2 =
      [.detailPage (lc "dts")] ∧
    (download_album cfgFlat netSkip (lc "2025") (lc "2025-01-01") albumNoDate).2 ≠ [] := by
  refine ⟨rfl, rfl, ?_⟩
  intro hcontra
  rw [show (download_album cfgFlat netSkip (lc "2025") (lc "2025-01-01") albumNoDate).2 =
    [.detailPage (lc "dts")] from rfl] at hcontra
  exact List.cons_ne_nil _ _ hcontra

/-- C1 amended: with skip-existing on and the target directory (named from the enriched
album) present, processing the item performs exactly one network call — the metadata
detail-page fetch — and returns SKIPPED; no link-resolution, content or CDN request is
made. -/
theorem C1_amended_skip_single_fetch (cfg : Config) (net : NetModel)
    (cy cd : List Char) (album : Album)
    (hskip : cfg.behavior.skip_existing = true)
    (hdir : net.dirExists
      (get_album_directory cfg (enrich net.detailPage album) cy cd) = true) :
    download_album cfg net cy cd album = (.ok .skipped, [.detailPage album.id]) := by
  unfold download_album
  simp [hskip, hdir]

/-- Witness for C1's amended theorem at the concrete always-existing directory. -/
theorem C1_amended_skip_single_fetch_witness :
    download_album cfgFlat netSkip (lc "2025") (lc "2025-01-01") albumNoDate =
      (.ok .skipped, [.detailPage (lc "dts")]) :=
  C1_amended_skip_single_fetch cfgFlat netSkip (lc "2025") (lc "2025-01-01")
    albumNoDate rfl rfl

end DizzySync
